import Mathlib

/-!
# Verification of the sms4-backend authorization / workflow core

A shallow embedding of the permission, verification, post and resource
logic of the sms4-backend service, together with proofs of the
specified properties.

Conventions of the embedding:

* Machine integers (`u64`, `u32`, `i64`) stay far from their overflow
  bounds in all code paths modelled here (ids are opaque, day counts are
  tiny), so they are embedded as `Nat` / `Int`.
* Fallible Rust functions returning `Result<T, Error>` are embedded as
  `Except Error T`; functions mutating `&mut self` and possibly failing
  are embedded as state-passing functions returning the (possibly
  unchanged) state paired with `Option Error` (`none` = success), which
  captures that an early `return Err(..)` leaves the receiver as it was
  at that point.
* "The current time" within one handler invocation is a single
  parameter (`now`, or `today` for dates); timestamps are integer
  seconds.
* The storage engine (`dmds`) is embedded as the list of stored records
  in iteration order; `get`/`get_mut` mutate the in-memory record
  directly, `destroy` removes it, `try_insert` fails on an id collision.
-/

namespace Sms4

/-- Payload of the `PostTimeRangeOutOfBound` error: either
`time::Duration::MAX` (used when the julian-day difference is negative
and `u32::try_from` fails) or a whole number of days. -/
inductive Dur where
  | maxDur : Dur
  | days (n : Int) : Dur
deriving DecidableEq

/-- The subset of `sms4_backend::Error` reachable from the modelled
handlers (src/src/lib.rs). -/
inductive Error where
  | permissionDenied
  | accountNotFound
  | verifySessionNotFound
  | captchaIncorrect
  | reqTooFrequent (remaining : Int)
  | postResourceEmpty
  | postNotFound (id : Nat)
  | postTimeRangeOutOfBound (d : Dur)
  | postTimeEnded
  | invalidPostStatus
  | resourceUsed (id : Nat)
deriving DecidableEq

/-! ## Dates

The `time` crate's `Date` is a (year, day-of-year ordinal) pair in the
proleptic Gregorian calendar; `ordinal` is 1-based. -/

/-- A calendar date, as the `time` crate stores it: year and 1-based
day-of-year ordinal. -/
structure Date where
  year : Int
  ordinal : Nat
deriving DecidableEq

/-- Gregorian leap-year rule, as in `time::util::is_leap_year`. -/
def isLeapYear (y : Int) : Bool :=
  (y % 4 == 0 && y % 100 != 0) || y % 400 == 0

/-- Number of days in a year (`time::util::days_in_year`). -/
def daysInYear (y : Int) : Nat :=
  if isLeapYear y then 366 else 365

/-- `time::Date::to_julian_day`:
`ordinal + 365*(year-1) + (year-1)/4 - (year-1)/100 + (year-1)/400 + 1_721_425`
with floor division. -/
def Date.toJulianDay (d : Date) : Int :=
  let y := d.year - 1
  (d.ordinal : Int) + 365 * y + Int.fdiv y 4 - Int.fdiv y 100 +
    Int.fdiv y 400 + 1721425

/-- `Date` ordering (derived lexicographically on (year, ordinal) in the
`time` crate). -/
def Date.lt (a b : Date) : Prop :=
  a.year < b.year ∨ (a.year = b.year ∧ a.ordinal < b.ordinal)

instance (a b : Date) : Decidable (Date.lt a b) := by
  unfold Date.lt; infer_instance

/-- `Date` non-strict ordering. -/
def Date.le (a b : Date) : Prop :=
  a.year < b.year ∨ (a.year = b.year ∧ a.ordinal ≤ b.ordinal)

instance (a b : Date) : Decidable (Date.le a b) := by
  unfold Date.le; infer_instance

/-- The day after a date (`time::Date::next_day`, for in-range dates). -/
def Date.nextDay (d : Date) : Date :=
  if d.ordinal < daysInYear d.year then ⟨d.year, d.ordinal + 1⟩
  else ⟨d.year + 1, 1⟩

/-- The day before a date (`time::Date::previous_day`, for in-range
dates). -/
def Date.prevDay (d : Date) : Date :=
  if 1 < d.ordinal then ⟨d.year, d.ordinal - 1⟩
  else ⟨d.year - 1, daysInYear (d.year - 1)⟩

/-- `date + Post::MAX_DUR` where `MAX_DUR = Duration::WEEK`: adding a
whole-week duration to a `time::Date` advances it by 7 days. -/
def Date.addWeek (d : Date) : Date :=
  Date.nextDay^[7] d

/-- `date - Post::MAX_DUR`: going back 7 days. -/
def Date.subWeek (d : Date) : Date :=
  Date.prevDay^[7] d

/-- An inclusive date range (`RangeInclusive<Date>`); `dstart`/`dend`
are the Rust `start()`/`end()` bounds. -/
structure DateRange where
  dstart : Date
  dend : Date
deriving DecidableEq

/-- `RangeInclusive::contains` for dates. -/
def DateRange.containsDate (t : DateRange) (d : Date) : Prop :=
  t.dstart.le d ∧ d.le t.dend

instance (t : DateRange) (d : Date) : Decidable (t.containsDate d) := by
  unfold DateRange.containsDate; infer_instance

/-! ## Resources (src/src/resource.rs) -/

/-- `resource::Variant`: type-specific metadata of a resource. -/
inductive Variant where
  | image (duration : Nat)
  | pdf (pages : Nat) (durations : List Nat)
  | video (duration : Nat)
deriving DecidableEq

/-- `resource::Resource`: id, variant, owner and the claimed/used flag. -/
structure Resource where
  id : Nat
  variant : Variant
  owner : Nat
  used : Bool
deriving DecidableEq

/-- `Resource::block` (src/src/resource.rs:76): fails with
`Error::ResourceUsed(id)` when `used` is already set, otherwise sets
`used` to `true`.  Embedded as state passing: the returned `Resource`
is the receiver after the call (unchanged when the call fails, since
the Rust function returns before mutating). -/
def Resource.block (r : Resource) : Resource × Option Error :=
  if r.used then (r, some (.resourceUsed r.id))
  else ({ r with used := true }, none)

/-- `Resource::unblock` (src/src/resource.rs:86): always succeeds and
clears `used`. -/
def Resource.unblock (r : Resource) : Resource :=
  { r with used := false }

/-- `Resource::is_blocked`. -/
def Resource.is_blocked (r : Resource) : Bool :=
  r.used

/-! ## Captcha cooldown (src/src/account/verify.rs) -/

/-- `verify::VerifyCx`: the stored captcha value and the timestamp of
the last captcha-send request (seconds). -/
structure VerifyCx where
  captcha : Nat
  last_req : Int
deriving DecidableEq

/-- `LEAST_DURATION` = 10 minutes, in seconds. -/
def leastDuration : Int := 600

/-- `VerifyCx::update` (src/src/account/verify.rs:57): if
`now - last_req` is at least 10 minutes, store a freshly generated
captcha (`fresh`, the random value produced by `Captcha::new`) and set
`last_req` to `now`, returning the captcha; otherwise fail with
`ReqTooFrequent(LEAST_DURATION - delta)` leaving the context
unchanged. -/
def VerifyCx.update (cx : VerifyCx) (now : Int) (fresh : Nat) :
    VerifyCx × Except Error Nat :=
  let delta := now - cx.last_req
  if delta ≥ leastDuration then
    ({ captcha := fresh, last_req := now }, .ok fresh)
  else
    (cx, .error (.reqTooFrequent (leastDuration - delta)))

/-! ## Permission delegation (src/src/handle/account.rs:274) -/

/-- Core of the `set_permissions` handler, given that both accounts were
found and the caller's token and `SetPermissions` permission were
validated.  Arguments: the delegator's `Permission` entry (`none` if the
entry is absent), the target's current `Permission` entry, and the
requested permission set `q`.  `Permission` entries hold only
permission tags (so `filter_map(Tag::as_permission)` keeps every
element of the intersection), and permissions are embedded as `Nat`
codes.  Returns the target's `Permission` entry after the call and the
error, if any:

* no delegator entry: `Error::PermissionDenied`
  (`from_entry(..).ok_or(..)?`);
* otherwise compute `legal_perms = q ∩ p`; if the target's entry is
  absent or a subset of `p`, overwrite the target's entry with
  `legal_perms`; in either case return `Ok(())`. -/
def set_permissions (delegator : Option (Finset Nat))
    (targetEntry : Option (Finset Nat)) (q : Finset Nat) :
    Option (Finset Nat) × Option Error :=
  match delegator with
  | none => (targetEntry, some .permissionDenied)
  | some p =>
    let legal := q ∩ p
    match targetEntry with
    | none => (some legal, none)
    | some pt => if pt ⊆ p then (some legal, none) else (some pt, none)

/-! ## Day-of-year window of the post filter (src/src/handle/post.rs:268) -/

/-- The day-of-year index restriction the `filter` handler builds for a
query date `on` (src/src/handle/post.rs:268): with
`end_o = (on + Post::MAX_DUR).ordinal()` and
`start_o = (on - Post::MAX_DUR).ordinal()`, a record with start-date
ordinal `o` is selected by `.and(1, start_o..).plus(1, ..=end_o)` when
`start_o > end_o`, and by `.and(1, start_o..=end_o)` otherwise. -/
def ordinalSelected (onDate : Date) (o : Nat) : Bool :=
  let endO := (onDate.addWeek).ordinal
  let startO := (onDate.subWeek).ordinal
  if startO > endO then decide (startO ≤ o) || decide (o ≤ endO)
  else decide (startO ≤ o) && decide (o ≤ endO)

/-- The selection described by the spec's words (spec §4.5), for
comparison with `ordinalSelected`: a single inclusive range
`[startOrdinal, endOrdinal]` when `startOrdinal <= endOrdinal`, and the
union `[startOrdinal, maxOrdinalOfYear] ∪ [1, endOrdinal]` when the
window wraps; `maxOrdinalOfYear` is the top of the 1-based day-of-year
index domain, 366. -/
def specWindowSelected (onDate : Date) (o : Nat) : Prop :=
  let startO := (onDate.subWeek).ordinal
  let endO := (onDate.addWeek).ordinal
  if startO ≤ endO then startO ≤ o ∧ o ≤ endO
  else (startO ≤ o ∧ o ≤ 366) ∨ (1 ≤ o ∧ o ≤ endO)

instance (onDate : Date) (o : Nat) : Decidable (specWindowSelected onDate o) := by
  unfold specWindowSelected; infer_instance

/-! ## Posts (src/src/post.rs) -/

/-- `post::Status`. -/
inductive Status where
  | pending
  | approved
  | rejected
deriving DecidableEq

/-- `post::Priority`. -/
inductive Priority where
  | block
  | high
  | normal
  | low
deriving DecidableEq

/-- `post::State`: one entry of a post's state history.  `time` is the
creation timestamp (`OffsetDateTime::now_utc()` at `State::new`),
embedded as a parameter wherever a state is built. -/
structure State where
  status : Status
  time : Int
  operator : Nat
  message : String
deriving DecidableEq

/-- `post::Post`.  The source maintains the invariant that `states` is
never empty (a post is created with one `Pending` state and states are
only appended). -/
structure Post where
  id : Nat
  title : String
  time : DateRange
  resources : List Nat
  states : List State
  grouped : Bool
  priority : Priority
deriving DecidableEq

/-- `Post::MAX_DUR = Duration::WEEK`, in days. -/
def Post.maxDurDays : Int := 7

/-- `post::validate_time` (src/src/post.rs:43): computes the julian-day
difference `end - start`; a negative difference fails `u32::try_from`
and yields `PostTimeRangeOutOfBound(Duration::MAX)`; a difference above
7 days yields `PostTimeRangeOutOfBound(dur)`; an end date before today
(`OffsetDateTime::now_utc().date()`, the `today` parameter) yields
`PostTimeEnded`; otherwise ok. -/
def validate_time (today : Date) (t : DateRange) : Except Error Unit :=
  let diff := t.dend.toJulianDay - t.dstart.toJulianDay
  if diff < 0 then .error (.postTimeRangeOutOfBound .maxDur)
  else if diff > Post.maxDurDays then
    .error (.postTimeRangeOutOfBound (.days diff))
  else if t.dend.lt today then .error .postTimeEnded
  else .ok ()

/-- `Post::new` (src/src/post.rs:65): validates the time range, then
builds the post with a singleton `Pending` state operated by the
creator.  The id is a SipHash of title, account, time range and the
current `SystemTime`, embedded as the opaque parameter `nonce`; `now`
is the timestamp of the initial state. -/
def Post.new (today : Date) (now : Int) (nonce : Nat) (title notes : String)
    (time : DateRange) (resources : List Nat) (account : Nat)
    (grouped : Bool) (priority : Priority) : Except Error Post :=
  match validate_time today time with
  | .error e => .error e
  | .ok _ =>
    .ok { id := nonce, title := title, time := time, resources := resources,
          states := [⟨.pending, now, account, notes⟩],
          grouped := grouped, priority := priority }

/-- `Post::state`: the last entry of the state history (`none` only on
an invariant-violating empty history, where the source panics). -/
def Post.state? (p : Post) : Option State :=
  p.states.getLast?

/-- Status of the current state. -/
def Post.currentStatus (p : Post) : Option Status :=
  p.state?.map State.status

/-- `Post::creator`: operator of the first state (the source panics on
an empty history; `0` stands for that unreachable case). -/
def Post.creator (p : Post) : Nat :=
  match p.states with
  | s :: _ => s.operator
  | [] => 0

/-- `Post::pust_state` (src/src/post.rs:118): rejects a state whose
status equals the current one when that status is `Approved` or
`Rejected` (`Error::InvalidPostStatus`); otherwise appends it.
State-passing embedding: the returned post is the receiver after the
call. -/
def Post.pust_state (p : Post) (s : State) : Post × Option Error :=
  if p.currentStatus = some s.status ∧
      (s.status = .approved ∨ s.status = .rejected) then
    (p, some .invalidPostStatus)
  else
    ({ p with states := p.states ++ [s] }, none)

/-- `Post::set_time` (src/src/post.rs:159): validates, then replaces the
time range; on a validation error the post is unchanged. -/
def Post.set_time (today : Date) (p : Post) (t : DateRange) :
    Post × Option Error :=
  match validate_time today t with
  | .error e => (p, some e)
  | .ok _ => ({ p with time := t }, none)

/-- Writing a mutated post back into the post store: the in-place
mutation through the store's mutable handle replaces the record with
the matching id. -/
def replacePost (posts : List Post) (id : Nat) (p : Post) : List Post :=
  posts.map fun q => if q.id == id then p else q

/-- Post-store lookup by id (the `sd!`/`gd!` macro pair iterating the
id-dimension selection). -/
def findPost (posts : List Post) (id : Nat) : Option Post :=
  posts.find? fun p => p.id == id

/-- The `review` handler (src/src/handle/post.rs:574), after `va!`
validated the caller's token; `hasReviewPerm` is the caller's
`Permission::ReviewPost` check made by `va!`.  A `Pending` review
outcome is rejected up front (`InvalidPostStatus`); then the post is
fetched (`PostNotFound` if absent) and `pust_state` appends a state
with the reviewer as operator.  Returns the post store after the call
and the error, if any. -/
def review (now : Int) (reviewer : Nat) (hasReviewPerm : Bool)
    (posts : List Post) (id : Nat) (status : Status) (message : String) :
    List Post × Option Error :=
  if hasReviewPerm = false then (posts, some .permissionDenied)
  else if ¬(status = .approved ∨ status = .rejected) then
    (posts, some .invalidPostStatus)
  else
    match findPost posts id with
    | none => (posts, some (.postNotFound id))
    | some post =>
      let r := post.pust_state ⟨status, now, reviewer, message⟩
      (replacePost posts id r.1, r.2)

/-! ## Post creation (src/src/handle/post.rs:95) -/

/-- The resource-claiming loop of `new_post` (src/src/handle/post.rs:110):
iterates the selected resource records in store order; for each record
whose id is listed in `req` and whose owner is the creator, calls
`block()?` (propagating `ResourceUsed` immediately, leaving the rest of
the store untouched) and counts it as validated; breaks once `validated`
reaches `req.length`.  Records not listed, or not owned by the creator,
are skipped silently.  Returns the store after the loop, the `validated`
count and the propagated error, if any. -/
def claimLoop (creator : Nat) (req : List Nat) (validated : Nat) :
    List Resource → List Resource × Nat × Option Error
  | [] => ([], validated, none)
  | r :: rest =>
    if r.id ∈ req then
      if r.owner = creator then
        let rb := r.block
        match rb.2 with
        | some e => (rb.1 :: rest, validated, some e)
        | none =>
          if validated + 1 ≥ req.length then (rb.1 :: rest, validated + 1, none)
          else
            let t := claimLoop creator req (validated + 1) rest
            (rb.1 :: t.1, t.2.1, t.2.2)
      else if validated ≥ req.length then (r :: rest, validated, none)
      else
        let t := claimLoop creator req validated rest
        (r :: t.1, t.2.1, t.2.2)
    else if validated ≥ req.length then (r :: rest, validated, none)
    else
      let t := claimLoop creator req validated rest
      (r :: t.1, t.2.1, t.2.2)

/-- The `new_post` handler (src/src/handle/post.rs:95), after `va!`
validated the caller's token and `Permission::Post`.  An empty resource
list fails with `PostResourceEmpty` (`resources.first().ok_or(..)?`);
then the claim loop runs; if it propagated an error, or fewer records
than requested were validated (`PermissionDenied`), creation fails with
the resource store keeping every claim made so far; otherwise
`Post::new` builds the post (validating the time range only now) and
`try_insert` stores it, mapping an id collision to `PermissionDenied`.
Returns the resource store, the post store and the result. -/
def new_post (store : List Resource) (posts : List Post) (creator : Nat)
    (today : Date) (now : Int) (nonce : Nat) (title notes : String)
    (time : DateRange) (req : List Nat) (grouped : Bool)
    (priority : Priority) : List Resource × List Post × Except Error Nat :=
  if req.isEmpty then (store, posts, .error .postResourceEmpty)
  else
    let cl := claimLoop creator req 0 store
    match cl.2.2 with
    | some e => (cl.1, posts, .error e)
    | none =>
      if cl.2.1 < req.length then (cl.1, posts, .error .permissionDenied)
      else
        match Post.new today now nonce title notes time req creator
            grouped priority with
        | .error e => (cl.1, posts, .error e)
        | .ok post =>
          if posts.any fun p => p.id == post.id then
            (cl.1, posts, .error .permissionDenied)
          else (cl.1, posts ++ [post], .ok post.id)

/-! ## Post visibility, modification and removal (src/src/handle/post.rs) -/

/-- `handle::post::Info`: the two response shapes of `get_info`. -/
inductive Info where
  | simple (title : String) (creator : Nat) (resources : List Nat)
      (grouped : Bool) (priority : Priority)
  | full (p : Post)
deriving DecidableEq

/-- `Info::from_simple`. -/
def Info.fromSimple (p : Post) : Info :=
  .simple p.title p.creator p.resources p.grouped p.priority

/-- `Info::from_full`. -/
def Info.fromFull (p : Post) : Info :=
  .full p

/-- The `get_info` handler (src/src/handle/post.rs:366), after `va!`
validated the caller's token.  `permittedReview` / `permittedGetPub` are
the caller's `ReviewPost` / `GetPubPost` permission checks; `now` is
`OffsetDateTime::now_utc().date()`.  An absent post id fails with
`PostNotFound(id)`; a found post is returned in full to its creator or
a reviewer, in simple form to a `GetPubPost` holder when it is approved
and its time range contains today, and otherwise the handler fails with
the same `PostNotFound(id)`. -/
def get_info (caller : Nat) (permittedReview permittedGetPub : Bool)
    (now : Date) (posts : List Post) (id : Nat) : Except Error Info :=
  match findPost posts id with
  | none => .error (.postNotFound id)
  | some val =>
    if val.creator = caller ∨ permittedReview = true then
      .ok (.fromFull val)
    else if permittedGetPub = true ∧ val.currentStatus = some .approved ∧
        val.time.containsDate now then
      .ok (.fromSimple val)
    else .error (.postNotFound id)

/-- Request body of the `modify` handler. -/
structure ModifyReq where
  title : Option String := none
  notes : Option String := none
  time : Option DateRange := none
  resources : Option (List Nat) := none
  grouped : Option Bool := none

/-- The resource-set loop of `modify` (src/src/handle/post.rs:542):
iterates the store; records listed in `odiff` (leaving the post) are
destroyed, records listed in `ndiff` (entering the post) are blocked
(`block()?` propagating `ResourceUsed`, keeping every destroy and block
made so far) and their ids collected in iteration order. -/
def modifyResLoop (odiff ndiff : List Nat) :
    List Resource → List Resource × List Nat × Option Error
  | [] => ([], [], none)
  | r :: rest =>
    if r.id ∈ odiff then
      let t := modifyResLoop odiff ndiff rest
      (t.1, t.2.1, t.2.2)
    else if r.id ∈ ndiff then
      let rb := r.block
      match rb.2 with
      | some e => (rb.1 :: rest, [], some e)
      | none =>
        let t := modifyResLoop odiff ndiff rest
        (rb.1 :: t.1, r.id :: t.2.1, t.2.2)
    else
      let t := modifyResLoop odiff ndiff rest
      (r :: t.1, t.2.1, t.2.2)

/-- Final stage of `modify`: appends a fresh `Pending` state operated by
the caller, with the request's notes as message
(src/src/handle/post.rs:558). -/
def modifyFinish (now : Int) (caller : Nat) (posts : List Post)
    (store : List Resource) (id : Nat) (notes : Option String) (p : Post) :
    List Post × List Resource × Option Error :=
  let ps := p.pust_state ⟨.pending, now, caller, notes.getD ""⟩
  (replacePost posts id ps.1, store, ps.2)

/-- Resource-set stage of `modify` (src/src/handle/post.rs:504): when
the request carries a resource list, computes the symmetric difference
with the post's current resources (both collected into hash sets, so
duplicates collapse), destroys leavers and blocks entrants via
`modifyResLoop`, and overwrites the post's resource list with the
intersection plus the newly blocked ids.  On a loop error the handler
returns early; the post's earlier in-memory field changes and the
loop's mutations persist. -/
def modifyResources (now : Int) (caller : Nat) (posts : List Post)
    (store : List Resource) (id : Nat) (req : ModifyReq) (p : Post) :
    List Post × List Resource × Option Error :=
  match req.resources with
  | none => modifyFinish now caller posts store id req.notes p
  | some newList =>
    let newSet := newList.eraseDups
    let old := p.resources
    let ndiff := newSet.filter fun i => ¬ i ∈ old
    let odiff := (old.eraseDups).filter fun i => ¬ i ∈ newList
    let inter := newSet.filter fun i => i ∈ old
    if ndiff.isEmpty ∧ odiff.isEmpty then
      modifyFinish now caller posts store id req.notes
        { p with resources := inter }
    else
      let t := modifyResLoop odiff ndiff store
      match t.2.2 with
      | some e => (replacePost posts id p, t.1, some e)
      | none =>
        modifyFinish now caller posts t.1 id req.notes
          { p with resources := inter ++ t.2.1 }

/-- The `modify` handler (src/src/handle/post.rs:479), after `va!`
validated the caller's token; `hasPostPerm` is the `Permission::Post`
check made by `va!` (failing with `PermissionDenied`).  An absent post
id fails with `PostNotFound(id)`; a caller who is not the creator gets
the same `PostNotFound(id)`.  Otherwise title and grouped flag are
overwritten, the time range is validated and set (`set_time(..)?`,
keeping the earlier in-memory field changes on error), and the resource
stage and the `Pending`-state append run. -/
def modify (today : Date) (now : Int) (caller : Nat) (hasPostPerm : Bool)
    (posts : List Post) (store : List Resource) (id : Nat)
    (req : ModifyReq) : List Post × List Resource × Option Error :=
  if hasPostPerm = false then (posts, store, some .permissionDenied)
  else
    match findPost posts id with
    | none => (posts, store, some (.postNotFound id))
    | some post =>
      if ¬ post.creator = caller then (posts, store, some (.postNotFound id))
      else
        let p1 := match req.title with
          | some t => { post with title := t }
          | none => post
        let p2 := match req.grouped with
          | some g => { p1 with grouped := g }
          | none => p1
        match req.time with
        | some t =>
          let st := p2.set_time today t
          match st.2 with
          | some e => (replacePost posts id st.1, store, some e)
          | none => modifyResources now caller posts store id req st.1
        | none => modifyResources now caller posts store id req p2

/-- The `remove` handler (src/src/handle/post.rs:596), after `va!`
validated the caller's token; `hasPostPerm` is the `Permission::Post`
check made by `va!`, `hasRemovePerm` the explicit
`Permission::RemovePost` check.  An absent post id fails with
`PostNotFound(id)`; a caller who is neither the creator nor a
`RemovePost` holder gets the same `PostNotFound(id)`.  Otherwise every
stored resource listed by the post whose used flag is set (the
`.and(1, 1)` dimension restriction) is destroyed, then the post record
is destroyed. -/
def remove (caller : Nat) (hasPostPerm hasRemovePerm : Bool)
    (posts : List Post) (store : List Resource) (id : Nat) :
    List Post × List Resource × Option Error :=
  if hasPostPerm = false then (posts, store, some .permissionDenied)
  else
    match findPost posts id with
    | none => (posts, store, some (.postNotFound id))
    | some post =>
      if ¬ post.creator = caller ∧ hasRemovePerm = false then
        (posts, store, some (.postNotFound id))
      else
        (posts.filter fun p => ¬ p.id == id,
         store.filter fun r => ¬ (r.id ∈ post.resources ∧ r.used = true),
         none)

/-! ## Password reset (src/src/handle/account.rs:168)

`Account` itself lives in `src/account/mod.rs`, which is not among the
provided sources; the parts the `reset_password` handler calls are
modelled from the spec. -/

/-- Modelled from the spec: the slice of a verified `Account` the
`reset_password` handler touches — the password, the set of active
session tokens with their optional expiry instants (spec §3 "a set of
active session tokens each with an issue/expiry policy"), and the
captcha of the pending reset-password verify session (spec §3
`VerifyContext`). -/
structure Account where
  password : String
  tokens : List (String × Option Int)
  resetCaptcha : Option Nat
deriving DecidableEq

/-- Modelled from the spec: `Account::clear_tokens` — the handler
comment "Clear all tokens after reseting password" together with spec
§6 (reset-password) and §3 (set of active session tokens); removes
every active session token. -/
def Account.clear_tokens (a : Account) : Account :=
  { a with tokens := [] }

/-- Modelled from the spec: `Account::is_token_valid` — spec §4.2
"`isTokenValid(token)`: true iff the token exists among the account's
active tokens and (no expiry, or expiry > now)". -/
def Account.is_token_valid (a : Account) (now : Int) (t : String) : Bool :=
  a.tokens.any fun tok =>
    tok.1 == t && (match tok.2 with
      | none => true
      | some e => decide (now < e))

/-- Modelled from the spec: `Account::reset_password` — spec §4.2
`verify(args)`: "compares caller-supplied captcha to the stored value;
fails with `CaptchaIncorrect` on mismatch (side-effect free, captcha
remains valid for retry)"; on match the new password is stored and the
verify session consumed; with no pending reset-password session the
request fails (`VerifySessionNotFound`). -/
def Account.reset_password (a : Account) (captcha : Nat)
    (newPassword : String) : Account × Option Error :=
  match a.resetCaptcha with
  | none => (a, some .verifySessionNotFound)
  | some c =>
    if c = captcha then
      ({ a with password := newPassword, resetCaptcha := none }, none)
    else (a, some .captchaIncorrect)

/-- The `reset_password` handler (src/src/handle/account.rs:168): on the
account found by email hash, `account.reset_password(captcha,
new_password)?` (early return on error), then `account.clear_tokens()`. -/
def reset_password (a : Account) (captcha : Nat) (newPassword : String) :
    Account × Option Error :=
  let r := a.reset_password captcha newPassword
  match r.2 with
  | some e => (r.1, some e)
  | none => (r.1.clear_tokens, none)

/-! ## Theorems -/

/-- C3: claiming (`block`) a resource whose `used` flag is set fails
with the `ResourceUsed` error and leaves the resource unchanged — the
operation takes no account argument, so this holds regardless of which
account attempts it; when `used` is false, `block` sets it to true and
succeeds; `unblock` always succeeds and clears `used`.  Hence `block`
is the only false-to-true transition of the flag among the resource
operations. -/
theorem resource_block_exclusivity (r : Resource) :
    (r.used = true → r.block = (r, some (Error.resourceUsed r.id))) ∧
    (r.used = false → r.block = ({ r with used := true }, none)) ∧
    (r.unblock.used = false) := by
  refine ⟨fun h => ?_, fun h => ?_, rfl⟩ <;> simp [Resource.block, h]

/-- Closed instance of `resource_block_exclusivity` at concrete
resources. -/
theorem resource_block_exclusivity_witness :
    (Resource.block ⟨1, .image 5, 2, true⟩ =
      (⟨1, .image 5, 2, true⟩, some (Error.resourceUsed 1))) ∧
    (Resource.block ⟨1, .image 5, 2, false⟩ =
      (⟨1, .image 5, 2, true⟩, none)) :=
  ⟨(resource_block_exclusivity ⟨1, .image 5, 2, true⟩).1 rfl,
   (resource_block_exclusivity ⟨1, .image 5, 2, false⟩).2.1 rfl⟩

/-- C8: a captcha re-request less than 10 minutes after the last one
fails with `ReqTooFrequent` carrying exactly `10 min - elapsed` and
changes neither the stored captcha nor the timestamp; once at least 10
minutes have elapsed, the freshly generated captcha is stored and the
last-issued timestamp is set to now. -/
theorem verify_update_cooldown (cx : VerifyCx) (now : Int) (fresh : Nat) :
    (now - cx.last_req < leastDuration →
      cx.update now fresh =
        (cx, .error (.reqTooFrequent (leastDuration - (now - cx.last_req))))) ∧
    (leastDuration ≤ now - cx.last_req →
      cx.update now fresh = (⟨fresh, now⟩, .ok fresh)) := by
  constructor <;> intro h <;> simp [VerifyCx.update] <;> omega

/-- Closed instance of `verify_update_cooldown`: a re-request 100
seconds after issuance is rejected with 500 seconds remaining; one 600
seconds after issuance succeeds. -/
theorem verify_update_cooldown_witness :
    (VerifyCx.update ⟨7, 0⟩ 100 9 =
      (⟨7, 0⟩, .error (.reqTooFrequent 500))) ∧
    (VerifyCx.update ⟨7, 0⟩ 600 9 = (⟨9, 600⟩, .ok 9)) :=
  ⟨(verify_update_cooldown ⟨7, 0⟩ 100 9).1 (by decide),
   (verify_update_cooldown ⟨7, 0⟩ 600 9).2 (by decide)⟩

/-- C1, counterexample: the claim says a delegation of `Q` succeeds
only if `Q ⊆ P`; but with delegator entry `P = {0}`, target entry `∅`
and request `Q = {1}` (not a subset of `P`), `set_permissions` returns
no error — it silently clips the grant to `Q ∩ P = ∅`. -/
theorem set_permissions_subset_cex :
    ¬ (({1} : Finset Nat) ⊆ {0}) ∧
    set_permissions (some {0}) (some ∅) {1} = (some (∅ : Finset Nat), none) := by
  constructor
  · decide
  · simp [set_permissions]

/-- C1, amended: a `set_permissions` call never checks `Q ⊆ P` and
never fails because of it.  It fails with `PermissionDenied` only when
the delegator has no `Permission` entry; otherwise it succeeds: when
the target's current entry is absent or a subset of `P` the target's
entry is overwritten with exactly `Q ∩ P`, and otherwise it is left
unchanged.  In every successful case the resulting entry is either
contained in the delegator's grant or is the target's untouched old
entry. -/
theorem set_permissions_amended (p : Finset Nat)
    (targetEntry : Option (Finset Nat)) (q : Finset Nat) :
    (set_permissions none targetEntry q =
      (targetEntry, some .permissionDenied)) ∧
    (∀ pt, targetEntry = some pt → ¬ pt ⊆ p →
      set_permissions (some p) targetEntry q = (some pt, none)) ∧
    ((∀ pt, targetEntry = some pt → pt ⊆ p) →
      set_permissions (some p) targetEntry q = (some (q ∩ p), none)) ∧
    (∀ s e, set_permissions (some p) targetEntry q = (some s, e) →
      s ⊆ p ∨ targetEntry = some s) := by
  refine ⟨rfl, ?_, ?_, ?_⟩
  · rintro pt rfl hns
    simp [set_permissions, hns]
  · intro hsub
    match targetEntry with
    | none => rfl
    | some pt => simp [set_permissions, hsub pt rfl]
  · intro s e h
    match targetEntry with
    | none =>
      simp [set_permissions] at h
      exact Or.inl (h.1 ▸ Finset.inter_subset_right)
    | some pt =>
      by_cases hp : pt ⊆ p
      · simp [set_permissions, hp] at h
        exact Or.inl (h.1 ▸ Finset.inter_subset_right)
      · simp [set_permissions, hp] at h
        exact Or.inr (by rw [h.1])

/-- Closed instance of `set_permissions_amended`: delegator grant
`{0,1}`, target entry `{0}` (a subset), requested set `{1,2}`: the call
succeeds and the target entry becomes `{1,2} ∩ {0,1} = {1}`. -/
theorem set_permissions_amended_witness :
    set_permissions (some ({0, 1} : Finset Nat)) (some {0}) {1, 2} =
      (some (({1, 2} : Finset Nat) ∩ {0, 1}), none) :=
  (set_permissions_amended {0, 1} (some {0}) {1, 2}).2.2.1
    (fun pt h => by cases h; decide)

/-- C2: for a query date `d` with maximum post span 7 days, the filter
computes `startOrdinal = ordinal(d - 7d)` and
`endOrdinal = ordinal(d + 7d)` and selects, over the 1-based day-of-year
index domain `[1, 366]`, exactly the single inclusive range
`[startOrdinal, endOrdinal]` when `startOrdinal ≤ endOrdinal`, and the
union `[startOrdinal, 366] ∪ [1, endOrdinal]` when the window wraps
around New Year's Day. -/
theorem filter_window_ranges (d : Date) (o : Nat) (h1 : 1 ≤ o)
    (h2 : o ≤ 366) :
    ordinalSelected d o = true ↔ specWindowSelected d o := by
  simp only [ordinalSelected, specWindowSelected]
  split_ifs with ha hb <;>
    simp only [Bool.or_eq_true, Bool.and_eq_true, decide_eq_true_eq] <;>
    omega

/-- Closed instance of `filter_window_ranges` at the spec's scenario:
query date Dec 29, 2023 (ordinal 363), so the window
`[Dec 22, Jan 5]` wraps and `start_o = 356 > end_o = 5`; a post with
start-ordinal 365 and one with start-ordinal 2 are both selected. -/
theorem filter_window_ranges_witness :
    (ordinalSelected ⟨2023, 363⟩ 365 = true ↔
      specWindowSelected ⟨2023, 363⟩ 365) ∧
    (ordinalSelected ⟨2023, 363⟩ 2 = true ↔
      specWindowSelected ⟨2023, 363⟩ 2) ∧
    ordinalSelected ⟨2023, 363⟩ 365 = true ∧
    ordinalSelected ⟨2023, 363⟩ 2 = true :=
  ⟨filter_window_ranges ⟨2023, 363⟩ 365 (by decide) (by decide),
   filter_window_ranges ⟨2023, 363⟩ 2 (by decide) (by decide),
   by decide, by decide⟩

/-- C4: with `span` the julian-day difference `end - start` of an
inclusive date range, `validate_time` — and hence `Post::new` and
`Post::set_time`, which call it first — fails with
`PostTimeRangeOutOfBound` whenever `span` exceeds 7 days; a range with
`span` exactly 7 whose end is not before today passes; and a
(well-formed, `0 ≤ span ≤ 7`) range whose end is before today fails
with `PostTimeEnded`. -/
theorem validate_time_bounds (today : Date) (t : DateRange) (span : Int)
    (hspan : span = t.dend.toJulianDay - t.dstart.toJulianDay) :
    (span > 7 →
      validate_time today t = .error (.postTimeRangeOutOfBound (.days span)) ∧
      (∀ now nonce title notes res acc grouped priority,
        Post.new today now nonce title notes t res acc grouped priority =
          .error (.postTimeRangeOutOfBound (.days span))) ∧
      (∀ p : Post, p.set_time today t =
        (p, some (.postTimeRangeOutOfBound (.days span))))) ∧
    (span = 7 → ¬ t.dend.lt today → validate_time today t = .ok ()) ∧
    (0 ≤ span → span ≤ 7 → t.dend.lt today →
      validate_time today t = .error .postTimeEnded) := by
  subst hspan
  refine ⟨fun h => ?_, fun h7 hlt => ?_, fun h0 h7 hlt => ?_⟩
  · have hv : validate_time today t =
        .error (.postTimeRangeOutOfBound
          (.days (t.dend.toJulianDay - t.dstart.toJulianDay))) := by
      unfold validate_time
      rw [if_neg (by omega), if_pos (by simpa [Post.maxDurDays] using h)]
    exact ⟨hv, fun now nonce title notes res acc grouped priority => by
      simp [Post.new, hv], fun p => by simp [Post.set_time, hv]⟩
  · unfold validate_time
    rw [if_neg (by omega), if_neg (by simp [Post.maxDurDays]; omega),
      if_neg hlt]
  · unfold validate_time
    rw [if_neg (by omega), if_neg (by simp [Post.maxDurDays]; omega),
      if_pos hlt]

/-- Closed instances of `validate_time_bounds`: an 8-day span in
January 2025 is rejected as out of bound, a 7-day span ending today (or
later) passes, and a 7-day span that ended before today is rejected as
ended. -/
theorem validate_time_bounds_witness :
    validate_time ⟨2025, 10⟩ ⟨⟨2025, 1⟩, ⟨2025, 9⟩⟩ =
      .error (.postTimeRangeOutOfBound (.days 8)) ∧
    validate_time ⟨2025, 1⟩ ⟨⟨2025, 1⟩, ⟨2025, 8⟩⟩ = .ok () ∧
    validate_time ⟨2025, 20⟩ ⟨⟨2025, 1⟩, ⟨2025, 8⟩⟩ =
      .error .postTimeEnded :=
  ⟨((validate_time_bounds ⟨2025, 10⟩ ⟨⟨2025, 1⟩, ⟨2025, 9⟩⟩ 8
      (by decide)).1 (by decide)).1,
   (validate_time_bounds ⟨2025, 1⟩ ⟨⟨2025, 1⟩, ⟨2025, 8⟩⟩ 7
      (by decide)).2.1 rfl (by decide),
   (validate_time_bounds ⟨2025, 20⟩ ⟨⟨2025, 1⟩, ⟨2025, 8⟩⟩ 7
      (by decide)).2.2 (by decide) (by decide) (by decide)⟩

/-- Looking up a post in a singleton store holding it. -/
theorem findPost_singleton (p : Post) : findPost [p] p.id = some p := by
  simp [findPost]

/-- Replacing by id leaves a store unchanged when the replacement
equals every record carrying that id. -/
theorem replacePost_self (posts : List Post) (pid : Nat) (p : Post)
    (huniq : ∀ q ∈ posts, q.id = pid → q = p) :
    replacePost posts pid p = posts := by
  unfold replacePost
  have h1 : ∀ q ∈ posts, (if q.id == pid then p else q) = id q := by
    intro q hq
    by_cases hqe : q.id = pid
    · simp [hqe, (huniq q hq hqe).symm]
    · simp [hqe]
  rw [List.map_congr_left h1, List.map_id]

/-- A `pust_state` call whose guard does not fire appends the state. -/
theorem pust_state_append (p : Post) (s : State)
    (h : ¬ (p.currentStatus = some s.status ∧
      (s.status = .approved ∨ s.status = .rejected))) :
    p.pust_state s = ({ p with states := p.states ++ [s] }, none) := by
  unfold Post.pust_state
  rw [if_neg h]

/-- A review with a fresh outcome on a singleton store appends one
state operated by the reviewer. -/
theorem review_step (now : Int) (rv : Nat) (q : Post) (status : Status)
    (m : String) (hst : status = .approved ∨ status = .rejected)
    (hcur : ¬ q.currentStatus = some status) :
    review now rv true [q] q.id status m =
      ([{ q with states := q.states ++ [⟨status, now, rv, m⟩] }], none) := by
  have hp : q.pust_state ⟨status, now, rv, m⟩ =
      ({ q with states := q.states ++ [⟨status, now, rv, m⟩] }, none) :=
    pust_state_append q _ (fun hc => hcur hc.1)
  simp only [review, findPost_singleton, Bool.true_eq_false, if_false,
    if_neg (not_not_intro hst), hp]
  simp [replacePost]

/-- C5: submitting a review whose outcome (`Approved` or `Rejected`)
equals the post's current status fails with `InvalidPostStatus` and
leaves the post store — hence the post's state history — unchanged;
alternating reviews Approved, then Rejected, then Approved always
succeed, each appending exactly one state whose operator is the
reviewer. -/
theorem review_idempotence_boundary (now₁ now₂ now₃ : Int)
    (rv₁ rv₂ rv₃ : Nat) (m₁ m₂ m₃ : String) (p : Post) :
    (∀ (posts : List Post) (pid : Nat) (status : Status) (msg : String)
      (now : Int) (reviewer : Nat),
      findPost posts pid = some p →
      (status = .approved ∨ status = .rejected) →
      p.currentStatus = some status →
      (∀ q ∈ posts, q.id = pid → q = p) →
      review now reviewer true posts pid status msg =
        (posts, some .invalidPostStatus)) ∧
    (p.currentStatus = some .pending →
      review now₁ rv₁ true [p] p.id .approved m₁ =
        ([{ p with states := p.states ++ [⟨.approved, now₁, rv₁, m₁⟩] }],
         none) ∧
      review now₂ rv₂ true
          [{ p with states := p.states ++ [⟨.approved, now₁, rv₁, m₁⟩] }]
          p.id .rejected m₂ =
        ([{ p with states := p.states ++
            [⟨.approved, now₁, rv₁, m₁⟩, ⟨.rejected, now₂, rv₂, m₂⟩] }],
         none) ∧
      review now₃ rv₃ true
          [{ p with states := p.states ++
            [⟨.approved, now₁, rv₁, m₁⟩, ⟨.rejected, now₂, rv₂, m₂⟩] }]
          p.id .approved m₃ =
        ([{ p with states := p.states ++
            [⟨.approved, now₁, rv₁, m₁⟩, ⟨.rejected, now₂, rv₂, m₂⟩,
             ⟨.approved, now₃, rv₃, m₃⟩] }],
         none)) := by
  constructor
  · intro posts pid status msg now reviewer hfind hst hcur huniq
    have hp : p.pust_state ⟨status, now, reviewer, msg⟩ =
        (p, some .invalidPostStatus) := by
      unfold Post.pust_state
      rw [if_pos ⟨hcur, hst⟩]
    simp only [review, hfind, Bool.true_eq_false, if_false,
      if_neg (not_not_intro hst), hp]
    rw [replacePost_self posts pid p huniq]
  · intro hpend
    refine ⟨?_, ?_, ?_⟩
    · exact review_step now₁ rv₁ p .approved m₁ (Or.inl rfl)
        (by rw [hpend]; simp)
    · have h2 := review_step now₂ rv₂
        { p with states := p.states ++ [⟨.approved, now₁, rv₁, m₁⟩] }
        .rejected m₂ (Or.inr rfl)
        (by simp [Post.currentStatus, Post.state?, List.getLast?_append])
      simpa using h2
    · have h3 := review_step now₃ rv₃
        { p with states := p.states ++
          [⟨.approved, now₁, rv₁, m₁⟩, ⟨.rejected, now₂, rv₂, m₂⟩] }
        .approved m₃ (Or.inl rfl)
        (by simp [Post.currentStatus, Post.state?, List.getLast?_append])
      simpa using h3

/-- Closed instances of `review_idempotence_boundary`: re-approving an
already-approved post fails with `InvalidPostStatus` and leaves the
store unchanged; an Approved → Rejected → Approved chain on a pending
post succeeds, appending one reviewer-operated state each time. -/
theorem review_idempotence_boundary_witness :
    (review 0 9 true
        [⟨1, "", ⟨⟨2025, 1⟩, ⟨2025, 2⟩⟩, [], [⟨.approved, 0, 5, ""⟩],
          false, .normal⟩] 1 .approved "m" =
      ([⟨1, "", ⟨⟨2025, 1⟩, ⟨2025, 2⟩⟩, [], [⟨.approved, 0, 5, ""⟩],
          false, .normal⟩], some .invalidPostStatus)) ∧
    (review 10 9 true
        [⟨1, "", ⟨⟨2025, 1⟩, ⟨2025, 2⟩⟩, [], [⟨.pending, 0, 5, ""⟩],
          false, .normal⟩] 1 .approved "a" =
      ([⟨1, "", ⟨⟨2025, 1⟩, ⟨2025, 2⟩⟩, [],
          [⟨.pending, 0, 5, ""⟩, ⟨.approved, 10, 9, "a"⟩],
          false, .normal⟩], none)) :=
  ⟨(review_idempotence_boundary 0 0 0 0 0 0 "" "" ""
      ⟨1, "", ⟨⟨2025, 1⟩, ⟨2025, 2⟩⟩, [], [⟨.approved, 0, 5, ""⟩],
        false, .normal⟩).1
      _ 1 .approved "m" 0 9 (by decide) (Or.inl rfl) (by decide)
      (by decide),
   (((review_idempotence_boundary 10 0 0 9 0 0 "a" "" ""
      ⟨1, "", ⟨⟨2025, 1⟩, ⟨2025, 2⟩⟩, [], [⟨.pending, 0, 5, ""⟩],
        false, .normal⟩).2 (by decide)).1)⟩

/-- C9: for a caller who is not the creator, holds no `ReviewPost`
permission, and for whom the `GetPubPost` path does not apply (no
`GetPubPost`, or the post is not approved, or its time range does not
contain today), `get_info`, `modify` and `remove` on a hidden existing
post all fail with `PostNotFound(id)` — byte-identical to their
responses for an id that does not exist, never a distinct
forbidden/permission-denied error.  (`modify` and `remove` are taken
past their `va!` gate, i.e. with the `Post` permission; `remove`
additionally without `RemovePost`.) -/
theorem hidden_post_indistinguishable (caller : Nat)
    (permittedGetPub : Bool) (nowD today : Date) (nowI : Int)
    (posts posts' : List Post) (store : List Resource) (pid : Nat)
    (post : Post) (req : ModifyReq)
    (hfind : findPost posts pid = some post)
    (habsent : findPost posts' pid = none)
    (hne : post.creator ≠ caller)
    (hpub : permittedGetPub = false ∨
      ¬ post.currentStatus = some .approved ∨
      ¬ post.time.containsDate nowD) :
    get_info caller false permittedGetPub nowD posts pid =
      .error (.postNotFound pid) ∧
    get_info caller false permittedGetPub nowD posts' pid =
      .error (.postNotFound pid) ∧
    modify today nowI caller true posts store pid req =
      (posts, store, some (.postNotFound pid)) ∧
    modify today nowI caller true posts' store pid req =
      (posts', store, some (.postNotFound pid)) ∧
    remove caller true false posts store pid =
      (posts, store, some (.postNotFound pid)) ∧
    remove caller true false posts' store pid =
      (posts', store, some (.postNotFound pid)) := by
  have hcond : ¬ (permittedGetPub = true ∧
      post.currentStatus = some .approved ∧
      post.time.containsDate nowD) := by
    rcases hpub with h | h | h
    · simp [h]
    · exact fun hc => h hc.2.1
    · exact fun hc => h hc.2.2
  refine ⟨?_, ?_, ?_, ?_, ?_, ?_⟩
  · simp only [get_info, hfind]
    rw [if_neg (by simp [hne]), if_neg hcond]
  · simp only [get_info, habsent]
  · simp only [modify, Bool.true_eq_false, if_false, hfind]
    rw [if_pos hne]
  · simp only [modify, Bool.true_eq_false, if_false, habsent]
  · simp only [remove, Bool.true_eq_false, if_false, hfind]
    rw [if_pos (by exact ⟨hne, by trivial⟩)]
  · simp only [remove, Bool.true_eq_false, if_false, habsent]

/-- Closed instance of `hidden_post_indistinguishable`: caller 9 (not
the creator 5, no permissions) gets `PostNotFound 1` from all three
operations both for the hidden post 1 and for the empty store. -/
theorem hidden_post_indistinguishable_witness :
    get_info 9 false false ⟨2025, 1⟩
        [⟨1, "", ⟨⟨2025, 1⟩, ⟨2025, 2⟩⟩, [], [⟨.pending, 0, 5, ""⟩],
          false, .normal⟩] 1 = .error (.postNotFound 1) ∧
    get_info 9 false false ⟨2025, 1⟩ [] 1 = .error (.postNotFound 1) ∧
    remove 9 true false
        [⟨1, "", ⟨⟨2025, 1⟩, ⟨2025, 2⟩⟩, [], [⟨.pending, 0, 5, ""⟩],
          false, .normal⟩] [] 1 =
      ([⟨1, "", ⟨⟨2025, 1⟩, ⟨2025, 2⟩⟩, [], [⟨.pending, 0, 5, ""⟩],
          false, .normal⟩], [], some (.postNotFound 1)) := by
  have h := hidden_post_indistinguishable 9 false ⟨2025, 1⟩ ⟨2025, 1⟩ 0
    [⟨1, "", ⟨⟨2025, 1⟩, ⟨2025, 2⟩⟩, [], [⟨.pending, 0, 5, ""⟩],
      false, .normal⟩] [] [] 1
    ⟨1, "", ⟨⟨2025, 1⟩, ⟨2025, 2⟩⟩, [], [⟨.pending, 0, 5, ""⟩],
      false, .normal⟩ {} (by decide) (by decide) (by decide)
    (Or.inl rfl)
  exact ⟨h.1, h.2.1, h.2.2.2.2.1⟩

/-- C10: a successful password reset clears the account's entire set of
active session tokens — every token issued before the reset is invalid
afterwards — while a failed reset (wrong captcha, or no pending reset
session) leaves the account, including its token set, unchanged. -/
theorem reset_password_clears_tokens (a : Account) (captcha : Nat)
    (pw : String) :
    (∀ a', reset_password a captcha pw = (a', none) →
      a'.tokens = [] ∧ ∀ now t, a'.is_token_valid now t = false) ∧
    (∀ a' e, reset_password a captcha pw = (a', some e) → a' = a) := by
  have key : reset_password a captcha pw =
      match a.resetCaptcha with
      | none => (a, some .verifySessionNotFound)
      | some c =>
        if c = captcha then
          ({ password := pw, tokens := [], resetCaptcha := none }, none)
        else (a, some .captchaIncorrect) := by
    unfold reset_password Account.reset_password
    cases a.resetCaptcha with
    | none => rfl
    | some c =>
      by_cases hce : c = captcha
      · simp [hce, Account.clear_tokens]
      · simp [hce]
  constructor
  · intro a' h
    rw [key] at h
    cases hc : a.resetCaptcha with
    | none => rw [hc] at h; simp at h
    | some c =>
      rw [hc] at h
      dsimp only at h
      by_cases hce : c = captcha
      · rw [if_pos hce] at h
        simp only [Prod.mk.injEq] at h
        have ht : a'.tokens = [] := by rw [← h.1]
        exact ⟨ht, fun now t => by simp [Account.is_token_valid, ht]⟩
      · rw [if_neg hce] at h; simp at h
  · intro a' e h
    rw [key] at h
    cases hc : a.resetCaptcha with
    | none =>
      rw [hc] at h
      simp only [Prod.mk.injEq] at h
      exact h.1.symm
    | some c =>
      rw [hc] at h
      dsimp only at h
      by_cases hce : c = captcha
      · rw [if_pos hce] at h; simp at h
      · rw [if_neg hce] at h
        simp only [Prod.mk.injEq] at h
        exact h.1.symm

/-- Closed instances of `reset_password_clears_tokens`: with pending
reset captcha 42 and one live token, the correct captcha empties the
token set and the wrong captcha leaves the account unchanged. -/
theorem reset_password_clears_tokens_witness :
    (Account.tokens ⟨"new", [], none⟩ = [] ∧
      ∀ now t, Account.is_token_valid ⟨"new", [], none⟩ now t = false) ∧
    (⟨"old", [("tok", none)], some 42⟩ : Account) =
      ⟨"old", [("tok", none)], some 42⟩ :=
  ⟨(reset_password_clears_tokens ⟨"old", [("tok", none)], some 42⟩ 42
      "new").1 ⟨"new", [], none⟩ (by decide),
   (reset_password_clears_tokens ⟨"old", [("tok", none)], some 42⟩ 41
      "new").2 ⟨"old", [("tok", none)], some 42⟩ .captchaIncorrect
      (by decide)⟩

/-- How one stored resource record may relate to its counterpart after
the `new_post` claim loop: either untouched, or — only for an unused
record listed in the request and owned by the creator — claimed
(`used` set to true).  In particular no record's `used` flag is ever
cleared. -/
def claimedOnly (creator : Nat) (req : List Nat) (r r' : Resource) : Prop :=
  r' = r ∨ (r.used = false ∧ r.id ∈ req ∧ r.owner = creator ∧
    r' = { r with used := true })

/-- The claim loop only claims: the resulting store is pointwise
`claimedOnly`-related to the input store. -/
theorem claimLoop_claimedOnly (creator : Nat) (req : List Nat) :
    ∀ (store : List Resource) (v : Nat),
      List.Forall₂ (claimedOnly creator req) store
        (claimLoop creator req v store).1 := by
  intro store
  induction store with
  | nil => intro v; exact .nil
  | cons r rest ih =>
    intro v
    have hrefl : ∀ l : List Resource,
        List.Forall₂ (claimedOnly creator req) l l :=
      fun l => List.forall₂_same.mpr fun a _ => Or.inl rfl
    unfold claimLoop
    by_cases h1 : r.id ∈ req
    · rw [if_pos h1]
      by_cases h2 : r.owner = creator
      · rw [if_pos h2]
        by_cases hu : r.used = true
        · simp only [Resource.block, if_pos hu]
          exact .cons (Or.inl rfl) (hrefl rest)
        · simp only [Resource.block, if_neg hu]
          have hclaim : claimedOnly creator req r { r with used := true } :=
            Or.inr ⟨by simpa using hu, h1, h2, rfl⟩
          by_cases h3 : v + 1 ≥ req.length
          · rw [if_pos h3]
            exact .cons hclaim (hrefl rest)
          · rw [if_neg h3]
            exact .cons hclaim (ih (v + 1))
      · rw [if_neg h2]
        by_cases h3 : v ≥ req.length
        · rw [if_pos h3]
          exact .cons (Or.inl rfl) (hrefl rest)
        · rw [if_neg h3]
          exact .cons (Or.inl rfl) (ih v)
    · rw [if_neg h1]
      by_cases h3 : v ≥ req.length
      · rw [if_pos h3]
        exact .cons (Or.inl rfl) (hrefl rest)
      · rw [if_neg h3]
        exact .cons (Or.inl rfl) (ih v)

/-- The only error the claim loop can propagate is `ResourceUsed`. -/
theorem claimLoop_error_shape (creator : Nat) (req : List Nat) :
    ∀ (store : List Resource) (v : Nat) (e : Error),
      (claimLoop creator req v store).2.2 = some e →
      ∃ i, e = .resourceUsed i := by
  intro store
  induction store with
  | nil => intro v e h; simp [claimLoop] at h
  | cons r rest ih =>
    intro v e h
    unfold claimLoop at h
    by_cases h1 : r.id ∈ req
    · rw [if_pos h1] at h
      by_cases h2 : r.owner = creator
      · rw [if_pos h2] at h
        by_cases hu : r.used = true
        · simp only [Resource.block, if_pos hu] at h
          exact ⟨r.id, by simpa using h.symm⟩
        · simp only [Resource.block, if_neg hu] at h
          by_cases h3 : v + 1 ≥ req.length
          · rw [if_pos h3] at h; simp at h
          · rw [if_neg h3] at h
            exact ih (v + 1) e h
      · rw [if_neg h2] at h
        by_cases h3 : v ≥ req.length
        · rw [if_pos h3] at h; simp at h
        · rw [if_neg h3] at h; exact ih v e h
    · rw [if_neg h1] at h
      by_cases h3 : v ≥ req.length
      · rw [if_pos h3] at h; simp at h
      · rw [if_neg h3] at h; exact ih v e h

/-- C6, counterexample: the claim says a creation whose listed resource
cannot be claimed fails with `PermissionDenied`; but with a single
listed resource that is owned by the creator and already used, the
claim loop's `block()?` propagates `ResourceUsed(1)` — a different
error — while still inserting no post. -/
theorem new_post_used_resource_cex :
    new_post [⟨1, .image 5, 7, true⟩] [] 7 ⟨2025, 1⟩ 0 99 "t" "n"
        ⟨⟨2025, 1⟩, ⟨2025, 3⟩⟩ [1] false .normal =
      ([⟨1, .image 5, 7, true⟩], [], .error (.resourceUsed 1)) ∧
    Error.resourceUsed 1 ≠ Error.permissionDenied := by
  exact ⟨rfl, by decide⟩

/-- C6, amended: when not every listed resource can be claimed,
creation fails — with `ResourceUsed(id)` if the loop hit an
already-used owned listed resource, and with `PermissionDenied` if a
listed resource is absent or not owned by the creator — no post is
inserted, and the resource store keeps every claim made earlier in the
attempt (records are only ever claimed, never released, by the
engine). -/
theorem new_post_failure_amended (store : List Resource)
    (posts : List Post) (creator : Nat) (today : Date) (now : Int)
    (nonce : Nat) (title notes : String) (time : DateRange)
    (req : List Nat) (grouped : Bool) (priority : Priority)
    (hreq : req ≠ []) :
    (∀ e, (claimLoop creator req 0 store).2.2 = some e →
      new_post store posts creator today now nonce title notes time req
          grouped priority =
        ((claimLoop creator req 0 store).1, posts, .error e) ∧
      ∃ i, e = .resourceUsed i) ∧
    ((claimLoop creator req 0 store).2.2 = none →
      (claimLoop creator req 0 store).2.1 < req.length →
      new_post store posts creator today now nonce title notes time req
          grouped priority =
        ((claimLoop creator req 0 store).1, posts,
         .error .permissionDenied)) ∧
    List.Forall₂ (claimedOnly creator req) store
      (new_post store posts creator today now nonce title notes time req
        grouped priority).1 := by
  have hne : req.isEmpty = false := by
    cases req with
    | nil => exact absurd rfl hreq
    | cons a l => rfl
  refine ⟨?_, ?_, ?_⟩
  · intro e he
    refine ⟨?_, claimLoop_error_shape creator req store 0 e he⟩
    unfold new_post
    rw [if_neg (by simp [hne])]
    dsimp only
    rw [he]
  · intro hok hlt
    unfold new_post
    rw [if_neg (by simp [hne])]
    dsimp only
    rw [hok, if_pos hlt]
  · have h1 : (new_post store posts creator today now nonce title notes
        time req grouped priority).1 =
        (claimLoop creator req 0 store).1 := by
      unfold new_post
      rw [if_neg (by simp [hne])]
      dsimp only
      cases hc : (claimLoop creator req 0 store).2.2 with
      | some e => rfl
      | none =>
        dsimp only
        by_cases hlt : (claimLoop creator req 0 store).2.1 < req.length
        · rw [if_pos hlt]
        · rw [if_neg hlt]
          cases hp : Post.new today now nonce title notes time req
              creator grouped priority with
          | error e => rfl
          | ok post =>
            dsimp only
            by_cases hdup : (posts.any fun p => p.id == post.id) = true
            · rw [if_pos hdup]
            · rw [if_neg hdup]
    rw [h1]
    exact claimLoop_claimedOnly creator req store 0

/-- Closed instance of `new_post_failure_amended`: the single listed,
creator-owned, already-used resource makes creation fail with
`ResourceUsed(1)`, post store untouched. -/
theorem new_post_failure_amended_witness :
    new_post [⟨1, .image 5, 7, true⟩] [] 7 ⟨2025, 1⟩ 0 99 "t" "n"
        ⟨⟨2025, 1⟩, ⟨2025, 3⟩⟩ [1] false .normal =
      ((claimLoop 7 [1] 0 [⟨1, .image 5, 7, true⟩]).1, [],
       .error (.resourceUsed 1)) ∧
    ∃ i, Error.resourceUsed 1 = .resourceUsed i :=
  (new_post_failure_amended [⟨1, .image 5, 7, true⟩] [] 7 ⟨2025, 1⟩ 0 99
    "t" "n" ⟨⟨2025, 1⟩, ⟨2025, 3⟩⟩ [1] false .normal
    (by decide)).1 (.resourceUsed 1) rfl

/-- C7, counterexample: the claim says a creation failing time-range
validation has changed no resource's `used` flag; but `new_post` claims
the listed resources before `Post::new` validates the range, so a
request with an 8-day range over one unused owned resource fails with
`PostTimeRangeOutOfBound` while the store now carries the resource with
`used = true`. -/
theorem new_post_claims_before_validation_cex :
    new_post [⟨1, .image 5, 7, false⟩] [] 7 ⟨2025, 1⟩ 0 99 "t" "n"
        ⟨⟨2025, 1⟩, ⟨2025, 9⟩⟩ [1] false .normal =
      ([⟨1, .image 5, 7, true⟩], [],
       .error (.postTimeRangeOutOfBound (.days 8))) ∧
    [(⟨1, .image 5, 7, true⟩ : Resource)] ≠ [⟨1, .image 5, 7, false⟩] := by
  constructor
  · rfl
  · decide

/-- C7, amended: `new_post` validates the time range only after the
claim loop: when every listed resource is claimed successfully but the
time range is invalid, creation fails with exactly the validation
error, no post is inserted, and the resource store is the claim loop's
store — the claimed resources stay claimed. -/
theorem new_post_time_validation_after_claim (store : List Resource)
    (posts : List Post) (creator : Nat) (today : Date) (now : Int)
    (nonce : Nat) (title notes : String) (time : DateRange)
    (req : List Nat) (grouped : Bool) (priority : Priority)
    (hreq : req ≠ [])
    (hcl : (claimLoop creator req 0 store).2.2 = none)
    (hval : req.length ≤ (claimLoop creator req 0 store).2.1)
    (e : Error) (hv : validate_time today time = .error e) :
    new_post store posts creator today now nonce title notes time req
        grouped priority =
      ((claimLoop creator req 0 store).1, posts, .error e) := by
  have hne : req.isEmpty = false := by
    cases req with
    | nil => exact absurd rfl hreq
    | cons a l => rfl
  unfold new_post
  rw [if_neg (by simp [hne])]
  dsimp only
  rw [hcl, if_neg (by omega)]
  unfold Post.new
  rw [hv]

/-- Closed instance of `new_post_time_validation_after_claim`: one
unused owned resource, 8-day time range — the creation fails with the
out-of-bound error while the claim loop's store (resource claimed)
stands. -/
theorem new_post_time_validation_after_claim_witness :
    new_post [⟨1, .image 5, 7, false⟩] [] 7 ⟨2025, 1⟩ 0 99 "t" "n"
        ⟨⟨2025, 1⟩, ⟨2025, 9⟩⟩ [1] false .normal =
      ((claimLoop 7 [1] 0 [⟨1, .image 5, 7, false⟩]).1, [],
       .error (.postTimeRangeOutOfBound (.days 8))) :=
  new_post_time_validation_after_claim [⟨1, .image 5, 7, false⟩] [] 7
    ⟨2025, 1⟩ 0 99 "t" "n" ⟨⟨2025, 1⟩, ⟨2025, 9⟩⟩ [1] false .normal
    (by decide) rfl (by decide) (.postTimeRangeOutOfBound (.days 8))
    rfl

end Sms4
